import Mathlib

/-!
# Verification of the doc_generator repository

Shallow embedding of the parts of the repository relevant to the frozen
claims, together with theorems settling each claim.

Strings are modelled as `List Char`; Python functions from the sources are
translated definition by definition.  Scanning loops are given explicit
fuel so that every definition is executable by the kernel; each wrapper
supplies enough fuel for the scan to finish whenever the source loop does.
-/

namespace DocGen

/-! ## Python string primitives -/

/-- Python whitespace (`str.strip()` with no argument, regex `\s`) for the
ASCII characters that occur in the repository's data. -/
def isPySpace (c : Char) : Bool :=
  c == ' ' || c == '\t' || c == '\n' || c == '\r' || c == '\x0b' || c == '\x0c'

/-- Python `str.strip()`. -/
def pystrip (l : List Char) : List Char :=
  ((l.dropWhile isPySpace).reverse.dropWhile isPySpace).reverse

/-- Python `str.strip(c)` for a single stripped character `c`. -/
def stripChar (c : Char) (l : List Char) : List Char :=
  ((l.dropWhile (· == c)).reverse.dropWhile (· == c)).reverse

/-- Python `str.split('\n')`. -/
def splitLines : List Char → List (List Char)
  | [] => [[]]
  | c :: t =>
    if c = '\n' then [] :: splitLines t
    else
      match splitLines t with
      | [] => [[c]]
      | l :: ls => (c :: l) :: ls

/-- Index of the first occurrence of `sep` in a string, used to model
Python `str.split(sep)` (only the part before the first separator is
needed by the sources). -/
def firstOccurIdx (sep : List Char) : List Char → Option Nat
  | [] => if sep.isPrefixOf ([] : List Char) then some 0 else none
  | c :: t =>
    if sep.isPrefixOf (c :: t) then some 0
    else (firstOccurIdx sep t).map (· + 1)

/-- The part of Python `s.split(sep)[0]`: the text before the first
occurrence of `sep`, or all of `s` when `sep` does not occur. -/
def splitHeadOn (sep s : List Char) : List Char :=
  match firstOccurIdx sep s with
  | some n => s.take n
  | none => s

/-- Python `str.split()` (whitespace splitting, empty tokens dropped),
with fuel for the scan. -/
def pySplitWsAux : Nat → List Char → List (List Char)
  | 0, _ => []
  | fuel + 1, l =>
    let l' := l.dropWhile isPySpace
    if l' = [] then []
    else
      let tok := l'.takeWhile (fun c => !(isPySpace c))
      tok :: pySplitWsAux fuel (l'.drop tok.length)

/-- Python `str.split()`. -/
def pySplitWs (l : List Char) : List (List Char) :=
  pySplitWsAux (l.length + 1) l

/-! ## a5_python_docx_only.py — `MarkdownToDocxConverter`

The parsed elements are the dictionaries produced by `parse_markdown`:
`heading` (`type/level/text`), `paragraph` (`type/text` and an optional
`style`), `list_item` (`type/text/ordered`) and `code_block`
(`type/code/lines_consumed`). -/

inductive MdElement
  | heading (level : Nat) (text : List Char)
  | paragraph (text : List Char) (style : Option (List Char))
  | listItem (text : List Char) (ordered : Bool)
  | codeBlock (code : List Char) (linesConsumed : Nat)
deriving DecidableEq

/-- Python `element.get('lines_consumed', 1)`: only `code_block`
dictionaries carry the key. -/
def MdElement.linesConsumedOf : MdElement → Nat
  | .codeBlock _ n => n
  | _ => 1

/-! ### `_parse_inline_markdown`

Three `re.sub` passes (links, numeric reference definitions, inline
backticks) followed by `str.strip()`.  Each pass is a left-to-right scan
replacing non-overlapping matches, exactly as `re.sub` does; the bounded
quantifiers of the three regexes make every submatch forced, so each
matcher below is the regex's backtracking semantics. -/

/-- Match of `\[([^\]]+)\]\([^)]+\)` at the start of `s`: returns the
captured link text and the remainder of the string after the match. -/
def matchLinkAt (s : List Char) : Option (List Char × List Char) :=
  match s with
  | [] => none
  | c :: ts =>
    if c = '[' then
      let txt := ts.takeWhile (fun a => !(a == ']'))
      if txt.length = 0 then none
      else
        let r1 := ts.drop txt.length
        if r1.take 2 = [']', '('] then
          let u := r1.drop 2
          let url := u.takeWhile (fun a => !(a == ')'))
          if url.length = 0 then none
          else
            let r2 := u.drop url.length
            if r2.take 1 = [')'] then some (txt, r2.drop 1) else none
        else none
    else none

/-- Model of `re.sub(r'\[([^\]]+)\]\([^)]+\)', r'\1', text)`, fuelled scan. -/
def subLinksAux : Nat → List Char → List Char
  | 0, s => s
  | fuel + 1, s =>
    match matchLinkAt s with
    | some (txt, rest) => txt ++ subLinksAux fuel rest
    | none =>
      match s with
      | [] => []
      | c :: cs => c :: subLinksAux fuel cs

def subLinks (s : List Char) : List Char :=
  subLinksAux (s.length + 1) s

/-- Match of `\[\d+\]:\s*.*?(?=\n|$)` at the start of `s`: returns the
remainder after the match (`\s*` is greedy, the lazy `.*?` then extends to
the first newline or the end of the string). -/
def matchRefAt (s : List Char) : Option (List Char) :=
  match s with
  | c :: t =>
    if c = '[' then
      let d := t.takeWhile Char.isDigit
      if d.length = 0 then none
      else
        match t.drop d.length with
        | b :: p :: tail =>
          if b = ']' ∧ p = ':' then
            some ((tail.dropWhile isPySpace).dropWhile (fun a => !(a == '\n')))
          else none
        | _ => none
    else none
  | [] => none

/-- Model of `re.sub(r'\[\d+\]:\s*.*?(?=\n|$)', '', text)`, fuelled scan. -/
def subRefsAux : Nat → List Char → List Char
  | 0, s => s
  | fuel + 1, s =>
    match matchRefAt s with
    | some rest => subRefsAux fuel rest
    | none =>
      match s with
      | [] => []
      | c :: cs => c :: subRefsAux fuel cs

def subRefs (s : List Char) : List Char :=
  subRefsAux (s.length + 1) s

/-- Match of `` `([^`]+)` `` at the start of `s`: captured code text and
remainder. -/
def matchCodeAt (s : List Char) : Option (List Char × List Char) :=
  match s with
  | [] => none
  | c :: ts =>
    if c = '`' then
      let inner := ts.takeWhile (fun a => !(a == '`'))
      if inner.length = 0 then none
      else
        let r1 := ts.drop inner.length
        if r1.take 1 = ['`'] then some (inner, r1.drop 1) else none
    else none

/-- Model of ``re.sub(r'`([^`]+)`', r'\1', text)``, fuelled scan. -/
def subCodeAux : Nat → List Char → List Char
  | 0, s => s
  | fuel + 1, s =>
    match matchCodeAt s with
    | some (inner, rest) => inner ++ subCodeAux fuel rest
    | none =>
      match s with
      | [] => []
      | c :: cs => c :: subCodeAux fuel cs

def subCode (s : List Char) : List Char :=
  subCodeAux (s.length + 1) s

/-- Model of `MarkdownToDocxConverter._parse_inline_markdown`. -/
def parse_inline_markdown (text : List Char) : List Char :=
  pystrip (subCode (subRefs (subLinks text)))

/-! ### `_parse_frontmatter` -/

/-- One frontmatter line (already stripped), lines 133-161 of the source. -/
def fmLine (line : List Char) : List MdElement :=
  if (':' ∈ line) ∧ ¬ (['#'].isPrefixOf line) then
    let keyPart := line.takeWhile (fun a => !(a == ':'))
    let key := pystrip keyPart
    let value := stripChar '\x27' (stripChar '"' (pystrip (line.drop (keyPart.length + 1))))
    if key = "title".toList then [.heading 0 value]
    else if key = "description".toList then [.paragraph value (some "italic".toList)]
    else if key = "authors".toList then
      if value ≠ [] ∧ value ≠ "null".toList then
        [.paragraph ("Autori: ".toList ++ value) none]
      else []
    else if key = "last_updated".toList then
      [.paragraph ("Ultimo aggiornamento: ".toList ++ value) (some "caption".toList)]
    else []
  else []

/-- Scan of the frontmatter body until a stripped `---` line or the end. -/
def fmScan : List (List Char) → List MdElement
  | [] => []
  | l :: rest =>
    if pystrip l = "---".toList then []
    else fmLine (pystrip l) ++ fmScan rest

/-- Model of `MarkdownToDocxConverter._parse_frontmatter`. -/
def parse_frontmatter (lines : List (List Char)) (startIdx : Nat) : List MdElement :=
  fmScan (lines.drop (startIdx + 1))

/-! ### `_parse_code_block` -/

def fenceS : List Char := "```".toList

/-- Model of `MarkdownToDocxConverter._parse_code_block`.  The scan collects the
lines strictly between the fences; the loop's final index is
`start_idx + 1 + len(code_lines)` in every case, so `lines_consumed`
is `len(code_lines) + 2`. -/
def parse_code_block (lines : List (List Char)) (startIdx : Nat) : Option MdElement :=
  if fenceS.isPrefixOf (lines.getD startIdx []) then
    let code := (lines.drop (startIdx + 1)).takeWhile (fun l => !(fenceS.isPrefixOf l))
    if code = [] then none
    else some (.codeBlock (List.intercalate ['\n'] code) (code.length + 2))
  else none

/-! ### `_parse_list`

Both call sites pass plain Python strings as markers (`'* '`, `'- '` and
the literal text `r'^\d+\.\s+'`), so the `isinstance(marker, str)` test is
always true and only the `startswith` branch can run; the `else:  # regex`
branch is unreachable. -/

/-- The inner `for marker in markers` loop. -/
def findMarker : List (List Char) → List Char → Option (List Char)
  | [], _ => none
  | m :: ms, line =>
    if m.isPrefixOf line then some (pystrip (line.drop m.length))
    else findMarker ms line

/-- Model of `isinstance(markers[0], str) and markers[0][0].isdigit()`. -/
def orderedFlagOf (markers : List (List Char)) : Bool :=
  match markers with
  | (c :: _) :: _ => c.isDigit
  | _ => false

/-- The `while i < len(lines)` loop of `_parse_list`. -/
def parseListScan (markers : List (List Char)) : List (List Char) → List MdElement
  | [] => []
  | l :: rest =>
    match findMarker markers (pystrip l) with
    | some text =>
      .listItem (parse_inline_markdown text) (orderedFlagOf markers) :: parseListScan markers rest
    | none => []

/-- Model of `MarkdownToDocxConverter._parse_list`. -/
def parse_list (lines : List (List Char)) (startIdx : Nat) (markers : List (List Char)) :
    List MdElement :=
  parseListScan markers (lines.drop startIdx)

/-! ### `parse_markdown` -/

/-- Model of `re.match(r'^#{1,6}\s+(.+)$', line)`, returning group 1.  The runs of
`#{1,6}`, `\s+` and `(.+)` are forced by the disjointness of their
character classes; the only backtracking point is `\s+` giving one
character back to `.+` when nothing follows the whitespace. -/
def reHeaderMatch (line : List Char) : Option (List Char) :=
  let h := line.takeWhile (fun a => a == '#')
  if 1 ≤ h.length ∧ h.length ≤ 6 then
    let rest := line.drop h.length
    let w := rest.takeWhile isPySpace
    if w.length = 0 then none
    else if rest.length = w.length then
      if 2 ≤ w.length then some (rest.drop (w.length - 1)) else none
    else some (rest.drop w.length)
  else none

/-- Model of `re.match(r'^\d+\.\s+', line)` viewed as a test. -/
def orderedListMatch (line : List Char) : Bool :=
  let d := line.takeWhile Char.isDigit
  if d.length = 0 then false
  else
    match line.drop d.length with
    | c :: rest2 => c == '.' && !((rest2.takeWhile isPySpace) = [])
    | [] => false

/-- The ordered-list marker value passed at line 91 of the source: the
regex *string* `r'^\d+\.\s+'` itself. -/
def orderedMarkerStr : List Char := "^\\d+\\.\\s+".toList

/-- Condition of the paragraph-accumulation `while` (line 104), on the
unstripped line.  The early `break` on a following blank line is subsumed
by the first conjunct. -/
def paraCond (l : List Char) : Bool :=
  !(pystrip l = []) && !(['#'].isPrefixOf l) && !(fenceS.isPrefixOf l)

def joinSpaces (ls : List (List Char)) : List Char :=
  List.intercalate [' '] ls

/-- The `while i < len(lines)` loop of `parse_markdown`, with fuel;
`none` means the fuel ran out before the loop finished. -/
def parseLoop (lines : List (List Char)) : Nat → Nat → List MdElement → Option (List MdElement)
  | 0, _, _ => none
  | fuel + 1, i, acc =>
    if hlt : i < lines.length then
      let line := pystrip (lines.get ⟨i, hlt⟩)
      if line = "---".toList ∧ i = 0 then
        let fm := parse_frontmatter lines i
        let inc := match fm.getLast? with
          | some e => e.linesConsumedOf
          | none => 1
        parseLoop lines fuel (i + inc) (acc ++ fm)
      else if ['#'].isPrefixOf line then
        match reHeaderMatch line with
        | some title =>
          let level := ((pySplitWs line).headD []).length
          parseLoop lines fuel (i + 1) (acc ++ [.heading (min level 9) title])
        | none => parseLoop lines fuel (i + 1) acc
      else if fenceS.isPrefixOf line then
        match parse_code_block lines i with
        | some cb => parseLoop lines fuel (i + cb.linesConsumedOf) (acc ++ [cb])
        | none => parseLoop lines fuel (i + 1) acc
      else if ("* ".toList).isPrefixOf line ∨ ("- ".toList).isPrefixOf line then
        let items := parse_list lines i ["* ".toList, "- ".toList]
        parseLoop lines fuel (i + items.length) (acc ++ items)
      else if orderedListMatch line then
        let items := parse_list lines i [orderedMarkerStr]
        parseLoop lines fuel (i + items.length) (acc ++ items)
      else if line = [] then
        parseLoop lines fuel (i + 1) acc
      else
        let paraLines := (lines.drop i).takeWhile paraCond
        if paraLines = [] then
          parseLoop lines fuel (i + 1) acc
        else
          let text := joinSpaces ((paraLines.map pystrip).filter (fun t => !(t = [])))
          if text = [] then
            parseLoop lines fuel (i + paraLines.length + 1) acc
          else
            parseLoop lines fuel (i + paraLines.length + 1)
              (acc ++ [.paragraph (parse_inline_markdown text) none])
    else
      some acc

/-- Model of `MarkdownToDocxConverter.parse_markdown`, with fuel for the main
scan. -/
def parse_markdown (fuel : Nat) (content : List Char) : Option (List MdElement) :=
  parseLoop (splitLines content) fuel 0 []

/-! ## a5_python_docx_only.py / p3_batch_conversion.py — `main`

Each entry point wraps its body in `try: ... except Exception as e:
print(...); return 1` and ends with `return 0`.  The body is modelled by
its outcome: `Except` error means the wrapped code raised. -/

structure MainOutcome where
  exitCode : Nat
  errorMessage : Option (List Char)
deriving DecidableEq

/-- Model of `main` of a5_python_docx_only.py.  Inside the `try` block the script
first raises `FileNotFoundError` when the source Markdown is missing,
then calls `convert_markdown_to_docx`; the `except` clause prints the
formatted message and returns 1, otherwise the function returns 0. -/
def a5_main (sourcePath : List Char) (sourceExists : Bool)
    (convertOutcome : Except (List Char) (List Char)) : MainOutcome :=
  if sourceExists = false then
    ⟨1, some ("\n❌ Errore: File Markdown non trovato: ".toList ++ sourcePath)⟩
  else
    match convertOutcome with
    | .ok _ => ⟨0, none⟩
    | .error e => ⟨1, some ("\n❌ Errore: ".toList ++ e)⟩

/-- Model of `main` of p3_batch_conversion.py: the whole body (sample creation,
batch conversion, report generation, summary printing) runs inside the
`try` block; its outcome is the argument. -/
def p3_main (bodyOutcome : Except (List Char) Unit) : MainOutcome :=
  match bodyOutcome with
  | .ok _ => ⟨0, none⟩
  | .error e => ⟨1, some ("\n❌ Error: ".toList ++ e)⟩

/-! ## p3_batch_conversion.py — batch conversion -/

structure OutputConfig where
  fmt : List Char
  options : List (List Char)
deriving DecidableEq

structure ConvConfig where
  input : List Char
  outputs : List OutputConfig
deriving DecidableEq

/-- Outcome of `subprocess.run(cmd, capture_output=True, text=True)`
before the `check=True` test. -/
structure RunResult where
  returncode : Int
  stdout : List Char
  stderr : List Char

inductive PandocErr
  | calledProcessError (returncode : Int) (stderr : List Char)
  | osError (msg : List Char)
deriving DecidableEq

/-- Python `pathlib.Path.stem`: the file name without its last suffix
(a leading dot alone does not start a suffix). -/
def pathStem (name : List Char) : List Char :=
  let r := name.reverse
  match firstOccurIdx ['.'] r with
  | some p => if p + 1 = r.length then name else (r.drop (p + 1)).reverse
  | none => name

/-- Line 134: `BUILD / f"{input_path.stem}_to_{output_format}.{output_format}"`,
modelled by the file name. -/
def outputFileName (stem fmt : List Char) : List Char :=
  stem ++ "_to_".toList ++ fmt ++ '.' :: fmt

/-- Model of `convert_single_file`.  Here `runProc` is the oracle for
`subprocess.run`: `.error` is an OS-level failure (which the
`except subprocess.CalledProcessError` clause does not catch), `.ok` a
completed process.  With `check=True` a nonzero return code raises
`CalledProcessError`, which the function logs and re-raises; the manual
raise in the `else` branch is unreachable. -/
def convert_single_file (runProc : List (List Char) → Except PandocErr RunResult)
    (inputPath : List Char) (outputFormat : List Char) (options : List (List Char)) :
    Except PandocErr (List Char) :=
  let outputFile := outputFileName (pathStem inputPath) outputFormat
  let cmd := ["pandoc".toList, inputPath, "-o".toList, outputFile,
    "--to=".toList ++ outputFormat] ++ options
  match runProc cmd with
  | .error e => .error e
  | .ok r =>
    if r.returncode ≠ 0 then .error (.calledProcessError r.returncode r.stderr)
    else if r.returncode = 0 then .ok outputFile
    else .error (.calledProcessError r.returncode r.stderr)

/-- The submission loop of `batch_convert_documents` (lines 177-190):
one task per output configuration of each conversion whose input file
exists; missing inputs are skipped without creating a task.  The
submission order is kept as the task list order. -/
def submitTasks (fileExists : List Char → Bool) : List ConvConfig →
    List (List Char × OutputConfig)
  | [] => []
  | conv :: rest =>
    (if fileExists conv.input then conv.outputs.map (fun oc => (conv.input, oc)) else [])
      ++ submitTasks fileExists rest

/-- The collection loop (lines 193-199): `future.result()` re-raises the
task's exception, which the `except Exception` clause swallows after
logging; only successful output paths are appended.  The thread pool's
tasks are independent calls without shared state, modelled by running
them in submission order. -/
def collectResults (runProc : List (List Char) → Except PandocErr RunResult) :
    List (List Char × OutputConfig) → List (List Char)
  | [] => []
  | (inp, oc) :: rest =>
    match convert_single_file runProc inp oc.fmt oc.options with
    | .ok p => p :: collectResults runProc rest
    | .error _ => collectResults runProc rest

/-- Model of `batch_convert_documents`. -/
def batch_convert_documents (runProc : List (List Char) → Except PandocErr RunResult)
    (fileExists : List Char → Bool) (conversions : List ConvConfig) : List (List Char) :=
  collectResults runProc (submitTasks fileExists conversions)

/-- Line 216 of `generate_conversion_report`:
`output.name.split('_to_')[0] + '.md'`. -/
def recoverInputName (outputName : List Char) : List Char :=
  splitHeadOn "_to_".toList outputName ++ ".md".toList

/-! ## a1_docxtpl_basic.py — `render` -/

/-- Environment of `render`: file existence, the parsed JSON context, and
docxtpl's optional `get_undeclared_template_variables` method (`none`
models the `AttributeError` of versions lacking the method). -/
structure A1Env where
  templateExists : Bool
  dataExists : Bool
  ctx : List (List Char × List Char)
  getUndeclared : Option (List (List Char × List Char) → List (List Char))

inductive A1Err
  | fileNotFoundTemplate
  | fileNotFoundData
  | keyError (missing : List (List Char))

structure A1Outcome where
  result : Except A1Err (List Char)
  written : List (List Char)

/-- Model of `render` of a1_docxtpl_basic.py: existence checks, then the
validation block (lines 56-63: `KeyError` on undeclared context keys,
skipped when the method raises `AttributeError`), then
`doc.render(ctx)` and `doc.save(output_path)`. -/
def a1_render (env : A1Env) (outputPath : List Char) : A1Outcome :=
  if env.templateExists = false then ⟨.error .fileNotFoundTemplate, []⟩
  else if env.dataExists = false then ⟨.error .fileNotFoundData, []⟩
  else
    match env.getUndeclared with
    | some f =>
      if f env.ctx ≠ [] then ⟨.error (.keyError (f env.ctx)), []⟩
      else ⟨.ok outputPath, [outputPath]⟩
    | none => ⟨.ok outputPath, [outputPath]⟩

/-! ## tools/normalize_docx.py and tests/golden/test_d1_golden.py -/

/-- Shape of the nine volatile-attribute regexes: a literal attribute
name, optionally extended by `[A-Za-z]*` (the `w:rsid` pattern) or
followed by `\s+id` (the `wp:docPr` / `pic:cNvPr` patterns), then
`="[^"]+"`. -/
structure VolPat where
  pre : List Char
  alphaExt : Bool
  wsId : Bool
deriving DecidableEq

/-- Match of `="[^"]+"` at the start of `t`, returning the match
length. -/
def matchAttrTail (t : List Char) : Option Nat :=
  match t with
  | e :: q :: v =>
    if e = '=' ∧ q = '"' then
      let val := v.takeWhile (fun a => !(a == '"'))
      if val.length = 0 then none
      else
        match v.drop val.length with
        | q2 :: _ => if q2 = '"' then some (2 + val.length + 1) else none
        | [] => none
    else none
  | _ => none

/-- Match of one volatile pattern at the start of `s`, returning the
match length.  The runs `[A-Za-z]*`, `\s+` and `[^"]+` are all forced
because the following literal lies outside their character class. -/
def matchVolAt (p : VolPat) (s : List Char) : Option Nat :=
  if p.pre.isPrefixOf s then
    let r1 := s.drop p.pre.length
    if p.wsId then
      let w := (r1.takeWhile isPySpace).length
      if w = 0 then none
      else if ("id".toList).isPrefixOf (r1.drop w) then
        (matchAttrTail (r1.drop (w + 2))).map (fun n => p.pre.length + w + 2 + n)
      else none
    else
      let a := if p.alphaExt then (r1.takeWhile (fun c => c.isAlpha)).length else 0
      (matchAttrTail (r1.drop a)).map (fun n => p.pre.length + a + n)
  else none

/-- Model of `re.sub(pat, "", xml)` for one volatile pattern, fuelled scan. -/
def subVolAux (p : VolPat) : Nat → List Char → List Char
  | 0, s => s
  | fuel + 1, s =>
    match matchVolAt p s with
    | some n => subVolAux p fuel (s.drop n)
    | none =>
      match s with
      | [] => []
      | c :: cs => c :: subVolAux p fuel cs

def subVol (p : VolPat) (s : List Char) : List Char :=
  subVolAux p (s.length + 1) s

/-- The list `VOLATILE_PATTERNS` of tools/normalize_docx.py, in source order. -/
def volatilePatterns : List VolPat :=
  [⟨"w:rsid".toList, true, false⟩,
   ⟨"w14:paraId".toList, false, false⟩,
   ⟨"w14:textId".toList, false, false⟩,
   ⟨"w:paraId".toList, false, false⟩,
   ⟨"w:paraIdDel".toList, false, false⟩,
   ⟨"w:paraIdParent".toList, false, false⟩,
   ⟨"wp:docPr".toList, false, true⟩,
   ⟨"pic:cNvPr".toList, false, true⟩,
   ⟨"cx:uid".toList, false, false⟩]

/-- Model of `re.sub(r"\s+", " ", xml)`, fuelled scan. -/
def collapseWsAux : Nat → List Char → List Char
  | 0, s => s
  | fuel + 1, s =>
    match s with
    | [] => []
    | c :: cs =>
      if isPySpace c then ' ' :: collapseWsAux fuel (cs.dropWhile isPySpace)
      else c :: collapseWsAux fuel cs

def collapseWs (s : List Char) : List Char :=
  collapseWsAux (s.length + 1) s

/-- Model of `normalize_xml` of tools/normalize_docx.py: remove each volatile
pattern in order, collapse whitespace runs to single spaces, strip. -/
def normalize_xml (xml : List Char) : List Char :=
  pystrip (collapseWs (volatilePatterns.foldl (fun x p => subVol p x) xml))

/-- Model of `os.getenv("UPDATE_GOLDEN") == "1"`. -/
def updateGoldenFlag (envUpdateGolden : Option (List Char)) : Bool :=
  envUpdateGolden == some "1".toList

inductive GoldenOutcome
  | wroteGolden (content : List Char)
  | asserted (passed : Bool)
deriving DecidableEq

/-- One case of `test_examples_against_golden`: `mainDocumentXml` is the
`word/document.xml` text of the DOCX produced by the case's `render()`,
`goldenText` the stored golden file's text when that file exists. -/
def test_case_golden (envUpdateGolden : Option (List Char)) (goldenText : Option (List Char))
    (mainDocumentXml : List Char) : GoldenOutcome :=
  let xml := normalize_xml mainDocumentXml
  if updateGoldenFlag envUpdateGolden ∨ goldenText = none then .wroteGolden xml
  else .asserted (xml == goldenText.getD [])

/-! ## Helper lemmas -/

theorem takeWhile_append_of_all {p : Char → Bool} {l1 l2 : List Char}
    (h : ∀ a ∈ l1, p a = true) : (l1 ++ l2).takeWhile p = l1 ++ l2.takeWhile p := by
  induction l1 with
  | nil => simp
  | cons a t ih =>
    have ha := h a (by simp)
    simp only [List.cons_append, List.takeWhile_cons, ha, if_true]
    rw [ih (fun b hb => h b (by simp [hb]))]

theorem takeWhile_cons_of_neg (p : Char → Bool) (c : Char) (l : List Char)
    (h : p c = false) : (c :: l).takeWhile p = [] := by
  simp [List.takeWhile_cons, h]

theorem dropWhile_cons_of_neg (p : Char → Bool) (c : Char) (l : List Char)
    (h : p c = false) : (c :: l).dropWhile p = c :: l := by
  simp [List.dropWhile_cons, h]

theorem exceptToOption_eq_some {ε α : Type} (e : Except ε α) (a : α) :
    e.toOption = some a ↔ e = Except.ok a := by
  cases e <;> simp [Except.toOption]

/-! ## Claim C1 -/

/-- Helper for C1: on the single line `1. item` the main loop takes the
ordered-list branch, `_parse_list` returns no items (the regex marker
string is treated as a literal prefix by the `isinstance(marker, str)`
branch), so the index advances by zero and the state repeats. -/
theorem parseLoop_ordered_item_step (fuel : Nat) (acc : List MdElement) :
    parseLoop (splitLines "1. item".toList) (fuel + 1) 0 acc
      = parseLoop (splitLines "1. item".toList) fuel 0 acc := by
  have h : parseLoop (splitLines "1. item".toList) (fuel + 1) 0 acc
      = parseLoop (splitLines "1. item".toList) fuel 0 (acc ++ []) := rfl
  simpa using h

/-- Claim C1: the claim states that `parse_markdown` terminates on every
input and that the scan advances past every line matching the
ordered-list pattern.  It is false: on the input `1. item` the line
matches `^\d+\.\s+`, but `_parse_list` treats its regex marker as a
literal string (the `isinstance(marker, str)` test is true for the
pattern text), matches nothing, and returns an empty item list, so
`i += len(list_items)` leaves `i` unchanged and the `while` loop never
advances: no amount of fuel completes the scan. -/
theorem parse_markdown_diverges_on_ordered_list :
    (∀ fuel, parse_markdown fuel "1. item".toList = none) ∧
    orderedListMatch (pystrip "1. item".toList) = true ∧
    parse_list (splitLines "1. item".toList) 0 [orderedMarkerStr] = [] := by
  refine ⟨?_, by decide, by decide⟩
  intro fuel
  induction fuel with
  | zero => rfl
  | succ n ih =>
    show parseLoop (splitLines "1. item".toList) (n + 1) 0 [] = none
    rw [parseLoop_ordered_item_step]
    exact ih

/-! ## Claim C2 -/

/-- Claim C2, counterexample: `# T` stripped consists of one `#`, one space
and the non-empty text `T`, yet parsing `hello\n# T` returns only a
paragraph: the paragraph accumulator stops before the `#` line but the
subsequent unconditional `i += 1` skips it, so no heading element is
produced for it. -/
theorem heading_line_lost_after_paragraph :
    "# T".toList ∈ splitLines "hello\n# T".toList ∧
    pystrip "# T".toList = List.replicate 1 '#' ++ ([' '] ++ "T".toList) ∧
    parse_markdown 10 "hello\n# T".toList = some [MdElement.paragraph "hello".toList none] ∧
    MdElement.heading 1 "T".toList ∉ [MdElement.paragraph "hello".toList none] := by
  decide

/-- Helper for C2: the header regex on a line of the claim's shape
returns exactly the text after the whitespace run. -/
theorem reHeaderMatch_shape (k : Nat) (ws txt : List Char)
    (hk1 : 1 ≤ k) (hk6 : k ≤ 6) (hws : ws ≠ [])
    (hwsall : ∀ c ∈ ws, isPySpace c = true)
    (htxt : txt ≠ []) (hth : isPySpace (txt.headD ' ') = false) :
    reHeaderMatch (List.replicate k '#' ++ (ws ++ txt)) = some txt := by
  obtain ⟨w0, ws', rfl⟩ : ∃ a t, ws = a :: t := by
    cases ws with
    | nil => exact absurd rfl hws
    | cons a t => exact ⟨a, t, rfl⟩
  obtain ⟨t0, txt', rfl⟩ : ∃ a t, txt = a :: t := by
    cases txt with
    | nil => exact absurd rfl htxt
    | cons a t => exact ⟨a, t, rfl⟩
  have hw0 : isPySpace w0 = true := hwsall w0 (by simp)
  have hw0h : (w0 == '#') = false := by
    cases hc : w0 == '#'
    · rfl
    · rw [beq_iff_eq] at hc; rw [hc] at hw0; exact absurd hw0 (by decide)
  have ht0 : isPySpace t0 = false := hth
  have h1 : (List.replicate k '#' ++ ((w0 :: ws') ++ (t0 :: txt'))).takeWhile
      (fun a => a == '#') = List.replicate k '#' := by
    rw [takeWhile_append_of_all (fun a ha => by
      rw [List.eq_of_mem_replicate ha]; rfl)]
    rw [List.cons_append,
      takeWhile_cons_of_neg (fun a => a == '#') w0 (ws' ++ (t0 :: txt')) hw0h,
      List.append_nil]
  have h2 : ((w0 :: ws') ++ (t0 :: txt')).takeWhile isPySpace = w0 :: ws' := by
    rw [takeWhile_append_of_all (fun a ha => hwsall a ha),
      takeWhile_cons_of_neg isPySpace t0 txt' ht0, List.append_nil]
  have hdrop : (List.replicate k '#' ++ ((w0 :: ws') ++ (t0 :: txt'))).drop k
      = (w0 :: ws') ++ (t0 :: txt') := by
    have h := List.drop_left (List.replicate k '#') ((w0 :: ws') ++ (t0 :: txt'))
    rwa [List.length_replicate] at h
  unfold reHeaderMatch
  simp only [h1, List.length_replicate]
  rw [if_pos ⟨hk1, hk6⟩]
  rw [hdrop, h2]
  have hlen : ((w0 :: ws') ++ (t0 :: txt')).length ≠ (w0 :: ws').length := by
    simp [List.length_append]
  rw [if_neg (by simp), if_neg hlen]
  rw [List.drop_left]

/-- Helper for C2: `len(line.split()[0])` on a line of the claim's shape
is the number of leading `#` characters. -/
theorem pySplitWs_head_shape (k : Nat) (ws txt : List Char)
    (hk1 : 1 ≤ k) (hws : ws ≠ []) (hwsall : ∀ c ∈ ws, isPySpace c = true) :
    ((pySplitWs (List.replicate k '#' ++ (ws ++ txt))).headD []).length = k := by
  obtain ⟨k', rfl⟩ : ∃ k', k = k' + 1 := by
    cases k with
    | zero => omega
    | succ n => exact ⟨n, rfl⟩
  obtain ⟨w0, ws', rfl⟩ : ∃ a t, ws = a :: t := by
    cases ws with
    | nil => exact absurd rfl hws
    | cons a t => exact ⟨a, t, rfl⟩
  have hw0 : isPySpace w0 = true := hwsall w0 (by simp)
  have hline : List.replicate (k' + 1) '#' ++ ((w0 :: ws') ++ txt)
      = '#' :: (List.replicate k' '#' ++ ((w0 :: ws') ++ txt)) := by
    rw [List.replicate_succ, List.cons_append]
  unfold pySplitWs
  simp only [pySplitWsAux]
  rw [hline, dropWhile_cons_of_neg (fun c => isPySpace c)
    '#' (List.replicate k' '#' ++ ((w0 :: ws') ++ txt)) (by decide)]
  rw [if_neg (by simp)]
  have htok : (('#' :: (List.replicate k' '#' ++ ((w0 :: ws') ++ txt))).takeWhile
      (fun c => !(isPySpace c))) = '#' :: List.replicate k' '#' := by
    rw [show ('#' :: (List.replicate k' '#' ++ ((w0 :: ws') ++ txt)))
        = ('#' :: List.replicate k' '#') ++ ((w0 :: ws') ++ txt) by simp]
    rw [takeWhile_append_of_all (fun a ha => by
      have ha' : a = '#' := by
        rcases List.mem_cons.mp ha with h | h
        · exact h
        · exact List.eq_of_mem_replicate h
      rw [ha']; rfl)]
    simp only [List.cons_append]
    rw [takeWhile_cons_of_neg (fun c => !(isPySpace c)) w0 (ws' ++ txt) (by simp [hw0]),
      List.append_nil]
  rw [htok]
  simp

/-- Claim C2, amended: every line that the main scan of `parse_markdown`
examines as its current line and whose stripped form consists of 1 to 6
`#` characters, a whitespace run and non-empty text produces exactly one
heading element whose level is the number of `#` characters and whose
text is the remainder, the scan then advancing one line. -/
theorem parseLoop_heading_step (lines : List (List Char)) (fuel i : Nat)
    (acc : List MdElement) (k : Nat) (ws txt : List Char) (hlt : i < lines.length)
    (hline : pystrip (lines.get ⟨i, hlt⟩) = List.replicate k '#' ++ (ws ++ txt))
    (hk1 : 1 ≤ k) (hk6 : k ≤ 6) (hws : ws ≠ [])
    (hwsall : ∀ c ∈ ws, isPySpace c = true)
    (htxt : txt ≠ []) (hth : isPySpace (txt.headD ' ') = false) :
    parseLoop lines (fuel + 1) i acc
      = parseLoop lines fuel (i + 1) (acc ++ [MdElement.heading k txt]) := by
  obtain ⟨k', hkk⟩ : ∃ k', k = k' + 1 := by
    cases k with
    | zero => omega
    | succ n => exact ⟨n, rfl⟩
  have hcons : List.replicate k '#' ++ (ws ++ txt)
      = '#' :: (List.replicate k' '#' ++ (ws ++ txt)) := by
    rw [hkk, List.replicate_succ, List.cons_append]
  have hnd : ¬(pystrip (lines.get ⟨i, hlt⟩) = "---".toList ∧ i = 0) := by
    rw [hline, hcons]
    rintro ⟨h, -⟩
    have h2 := congrArg (fun l => l.headD ' ') h
    simp at h2
  have hpre : (['#'].isPrefixOf (pystrip (lines.get ⟨i, hlt⟩))) = true := by
    rw [hline, hcons]
    simp [List.isPrefixOf]
  have hmatch : reHeaderMatch (pystrip (lines.get ⟨i, hlt⟩)) = some txt := by
    rw [hline]
    exact reHeaderMatch_shape k ws txt hk1 hk6 hws hwsall htxt hth
  have hlevel : ((pySplitWs (pystrip (lines.get ⟨i, hlt⟩))).headD []).length = k := by
    rw [hline]
    exact pySplitWs_head_shape k ws txt hk1 hws hwsall
  simp only [parseLoop, dif_pos hlt, if_neg hnd, hpre, if_pos, hmatch, hlevel]
  rw [min_eq_left (by omega)]

/-- Witness for the C2 amended theorem: at the concrete single heading
line `# T` the step produces the heading of level 1 with text `T`. -/
theorem parseLoop_heading_step_witness :
    parseLoop [['#', ' ', 'T']] 2 0 []
      = parseLoop [['#', ' ', 'T']] 1 1 [MdElement.heading 1 ['T']] ∧
    parseLoop [['#', ' ', 'T']] 2 0 [] = some [MdElement.heading 1 ['T']] := by
  constructor
  · exact parseLoop_heading_step [['#', ' ', 'T']] 1 0 [] 1 [' '] ['T']
      (by decide) (by decide) (by decide) (by decide) (by decide)
      (by decide) (by decide) (by decide)
  · decide

/-! ## Claim C3 -/

/-- Claim C3: `batch_convert_documents` returns exactly the output paths of
the submitted tasks whose `convert_single_file` call did not raise; a
task whose call raised contributes nothing, each task is consulted once
(the collection loop is a single pass over the submitted futures, so
there is no retry). -/
theorem batch_convert_collects_exactly_successes
    (runProc : List (List Char) → Except PandocErr RunResult)
    (fileExists : List Char → Bool) (conversions : List ConvConfig) :
    batch_convert_documents runProc fileExists conversions
      = (submitTasks fileExists conversions).filterMap
          (fun task => (convert_single_file runProc task.1 task.2.fmt task.2.options).toOption) ∧
    ∀ p, p ∈ batch_convert_documents runProc fileExists conversions ↔
      ∃ task ∈ submitTasks fileExists conversions,
        convert_single_file runProc task.1 task.2.fmt task.2.options = Except.ok p := by
  have key : ∀ ts : List (List Char × OutputConfig), collectResults runProc ts
      = ts.filterMap
          (fun task => (convert_single_file runProc task.1 task.2.fmt task.2.options).toOption) := by
    intro ts
    induction ts with
    | nil => rfl
    | cons t rest ih =>
      obtain ⟨inp, oc⟩ := t
      cases h : convert_single_file runProc inp oc.fmt oc.options with
      | ok p => simp [collectResults, List.filterMap_cons, h, Except.toOption, ih]
      | error e => simp [collectResults, List.filterMap_cons, h, Except.toOption, ih]
  constructor
  · exact key (submitTasks fileExists conversions)
  · intro p
    unfold batch_convert_documents
    rw [key (submitTasks fileExists conversions)]
    rw [List.mem_filterMap]
    constructor
    · rintro ⟨task, htask, hsome⟩
      exact ⟨task, htask, (exceptToOption_eq_some _ p).mp hsome⟩
    · rintro ⟨task, htask, hok⟩
      exact ⟨task, htask, (exceptToOption_eq_some _ p).mpr hok⟩

/-! ## Claim C4 -/

/-- Claim C4, counterexample: with both files present, a context on which
docxtpl's `get_undeclared_template_variables` reports the undeclared
variable `x`, `render` of a1_docxtpl_basic.py raises `KeyError` before
rendering and writes no output — contradicting the claim that no
rendering script raises an error about missing or undeclared context
keys prior to rendering. -/
theorem a1_render_raises_keyerror_before_rendering :
    (a1_render ⟨true, true, [], some (fun _ => [['x']])⟩ "out.docx".toList).result
      = Except.error (A1Err.keyError [['x']]) ∧
    (a1_render ⟨true, true, [], some (fun _ => [['x']])⟩ "out.docx".toList).written = [] := by
  constructor <;> rfl

/-- Claim C4, amended: `render` of a1_docxtpl_basic.py does validate the
context before rendering when docxtpl exposes
`get_undeclared_template_variables`: undeclared keys raise `KeyError`
prior to any rendering and nothing is written; only when the method is
unavailable (`AttributeError`), or when it reports no missing keys, is
the context substituted into the template without further checks. -/
theorem a1_render_validation_behavior (env : A1Env) (outputPath : List Char)
    (ht : env.templateExists = true) (hd : env.dataExists = true) :
    (env.getUndeclared = none →
      a1_render env outputPath = ⟨Except.ok outputPath, [outputPath]⟩) ∧
    (∀ f, env.getUndeclared = some f → f env.ctx = [] →
      a1_render env outputPath = ⟨Except.ok outputPath, [outputPath]⟩) ∧
    (∀ f, env.getUndeclared = some f → f env.ctx ≠ [] →
      (a1_render env outputPath).result = Except.error (A1Err.keyError (f env.ctx)) ∧
      (a1_render env outputPath).written = []) := by
  unfold a1_render
  rw [ht]
  rw [hd]
  refine ⟨?_, ?_, ?_⟩
  · intro hnone
    rw [hnone]
    rfl
  · intro f hf hempty
    rw [hf]
    simp [hempty]
  · intro f hf hne
    rw [hf]
    simp [hne]

/-- Witness for the C4 amended theorem: when the method is unavailable
the render proceeds unchecked. -/
theorem a1_render_validation_behavior_witness :
    a1_render ⟨true, true, [], none⟩ "out.docx".toList
      = ⟨Except.ok "out.docx".toList, ["out.docx".toList]⟩ :=
  (a1_render_validation_behavior ⟨true, true, [], none⟩ "out.docx".toList rfl rfl).1 rfl

/-! ## Claim C5 -/

/-- Claim C5: with a stored golden file and `UPDATE_GOLDEN` not `'1'`, the
golden test asserts exact string equality between the stored text and
the normalized main-document XML — the volatile patterns removed in
order, whitespace runs collapsed to single spaces, and the result
stripped. -/
theorem golden_test_asserts_normalized_equality
    (envUpdateGolden : Option (List Char)) (g mainDocumentXml : List Char)
    (hupd : updateGoldenFlag envUpdateGolden = false) :
    test_case_golden envUpdateGolden (some g) mainDocumentXml
      = GoldenOutcome.asserted
          (pystrip (collapseWs (volatilePatterns.foldl (fun x p => subVol p x) mainDocumentXml))
            == g) ∧
    (test_case_golden envUpdateGolden (some g) mainDocumentXml = GoldenOutcome.asserted true
      ↔ normalize_xml mainDocumentXml = g) := by
  unfold test_case_golden
  rw [hupd]
  constructor
  · simp [normalize_xml]
  · simp [beq_iff_eq]

/-- Witness for C5 at a concrete case: the stored golden equals the
normalized XML, so the assertion passes. -/
theorem golden_test_asserts_normalized_equality_witness :
    test_case_golden none (some "<a> b".toList) " <a>\t\nb ".toList
      = GoldenOutcome.asserted true ∧
    updateGoldenFlag none = false :=
  ⟨(golden_test_asserts_normalized_equality none "<a> b".toList " <a>\t\nb ".toList
      (by decide)).2.mpr (by decide), by decide⟩

/-! ## Claim C6 -/

/-- Claim C6: for the two cited entry points (a5_python_docx_only.py and
p3_batch_conversion.py), `main` returns 0 with no error output when the
wrapped body completes without exception, and returns 1 after printing
the formatted error message when the body raises (for a5 this includes
the `FileNotFoundError` raised inside the `try` block when the source
Markdown is missing). -/
theorem main_returns_zero_on_success_one_on_exception :
    (∀ src out, a5_main src true (Except.ok out) = ⟨0, none⟩) ∧
    (∀ src e, a5_main src true (Except.error e)
      = ⟨1, some ("\n❌ Errore: ".toList ++ e)⟩) ∧
    (∀ src conv, a5_main src false conv
      = ⟨1, some ("\n❌ Errore: File Markdown non trovato: ".toList ++ src)⟩) ∧
    p3_main (Except.ok ()) = ⟨0, none⟩ ∧
    (∀ e, p3_main (Except.error e) = ⟨1, some ("\n❌ Error: ".toList ++ e)⟩) :=
  ⟨fun _ _ => rfl, fun _ _ => rfl, fun _ _ => rfl, rfl, fun _ => rfl⟩

/-! ## Claim C7 -/

/-- Claim C7: `render` of a1_docxtpl_basic.py raises `FileNotFoundError`
whenever the template file or the data file is missing; the checks run
before any loading or rendering work and no output file is written. -/
theorem a1_render_missing_input_raises (env : A1Env) (outputPath : List Char)
    (h : env.templateExists = false ∨ env.dataExists = false) :
    ((a1_render env outputPath).result = Except.error A1Err.fileNotFoundTemplate ∨
     (a1_render env outputPath).result = Except.error A1Err.fileNotFoundData) ∧
    (a1_render env outputPath).written = [] := by
  unfold a1_render
  by_cases ht : env.templateExists = false
  · simp [ht]
  · have hd : env.dataExists = false := by
      rcases h with h | h
      · exact absurd h ht
      · exact h
    simp [ht, hd]

/-- Witness for C7: a missing template raises before anything is
written. -/
theorem a1_render_missing_input_raises_witness :
    ((a1_render ⟨false, true, [], none⟩ "out.docx".toList).result
        = Except.error A1Err.fileNotFoundTemplate ∨
     (a1_render ⟨false, true, [], none⟩ "out.docx".toList).result
        = Except.error A1Err.fileNotFoundData) ∧
    (a1_render ⟨false, true, [], none⟩ "out.docx".toList).written = [] :=
  a1_render_missing_input_raises ⟨false, true, [], none⟩ "out.docx".toList (Or.inl rfl)

/-! ## Claim C8 -/

theorem matchLinkAt_none_of_head (c : Char) (cs : List Char) (h : c ≠ '[') :
    matchLinkAt (c :: cs) = none := by
  simp [matchLinkAt, h]

theorem matchRefAt_none_of_head (c : Char) (cs : List Char) (h : c ≠ '[') :
    matchRefAt (c :: cs) = none := by
  simp [matchRefAt, h]

theorem matchCodeAt_none_of_head (c : Char) (cs : List Char) (h : c ≠ '`') :
    matchCodeAt (c :: cs) = none := by
  simp [matchCodeAt, h]

theorem subLinksAux_id_of_no_bracket :
    ∀ (fuel : Nat) (s : List Char), '[' ∉ s → subLinksAux fuel s = s := by
  intro fuel
  induction fuel with
  | zero => intro s _; rfl
  | succ n ih =>
    intro s hs
    cases s with
    | nil => rfl
    | cons c cs =>
      have hc : c ≠ '[' := fun h => hs (h ▸ List.mem_cons_self c cs)
      simp only [subLinksAux, matchLinkAt_none_of_head c cs hc]
      rw [ih cs (fun h => hs (List.mem_cons_of_mem c h))]

theorem subRefsAux_id_of_no_bracket :
    ∀ (fuel : Nat) (s : List Char), '[' ∉ s → subRefsAux fuel s = s := by
  intro fuel
  induction fuel with
  | zero => intro s _; rfl
  | succ n ih =>
    intro s hs
    cases s with
    | nil => rfl
    | cons c cs =>
      have hc : c ≠ '[' := fun h => hs (h ▸ List.mem_cons_self c cs)
      simp only [subRefsAux, matchRefAt_none_of_head c cs hc]
      rw [ih cs (fun h => hs (List.mem_cons_of_mem c h))]

theorem subCodeAux_id_of_no_backtick :
    ∀ (fuel : Nat) (s : List Char), '`' ∉ s → subCodeAux fuel s = s := by
  intro fuel
  induction fuel with
  | zero => intro s _; rfl
  | succ n ih =>
    intro s hs
    cases s with
    | nil => rfl
    | cons c cs =>
      have hc : c ≠ '`' := fun h => hs (h ▸ List.mem_cons_self c cs)
      simp only [subCodeAux, matchCodeAt_none_of_head c cs hc]
      rw [ih cs (fun h => hs (List.mem_cons_of_mem c h))]

theorem subLinksAux_nil (fuel : Nat) : subLinksAux fuel [] = [] := by
  cases fuel <;> rfl

theorem subCodeAux_nil (fuel : Nat) : subCodeAux fuel [] = [] := by
  cases fuel <;> rfl

theorem subLinks_id_of_no_bracket (s : List Char) (h : '[' ∉ s) : subLinks s = s :=
  subLinksAux_id_of_no_bracket (s.length + 1) s h

theorem subRefs_id_of_no_bracket (s : List Char) (h : '[' ∉ s) : subRefs s = s :=
  subRefsAux_id_of_no_bracket (s.length + 1) s h

theorem subCode_id_of_no_backtick (s : List Char) (h : '`' ∉ s) : subCode s = s :=
  subCodeAux_id_of_no_backtick (s.length + 1) s h

/-- The link matcher on a full link `[t](u)`. -/
theorem matchLinkAt_link (t u : List Char) (ht : t ≠ []) (hu : u ≠ [])
    (htb : ']' ∉ t) (hub : ')' ∉ u) :
    matchLinkAt ('[' :: (t ++ (']' :: '(' :: (u ++ [')'])))) = some (t, []) := by
  have htw : (t ++ (']' :: '(' :: (u ++ [')']))).takeWhile (fun a => !(a == ']')) = t := by
    rw [takeWhile_append_of_all (fun a ha => by
      have hne : a ≠ ']' := fun hh => htb (hh ▸ ha)
      simp [hne])]
    rw [takeWhile_cons_of_neg (fun a => !(a == ']')) ']' ('(' :: (u ++ [')'])) (by simp),
      List.append_nil]
  have huw : (u ++ [')']).takeWhile (fun a => !(a == ')')) = u := by
    rw [takeWhile_append_of_all (fun a ha => by
      have hne : a ≠ ')' := fun hh => hub (hh ▸ ha)
      simp [hne])]
    rw [takeWhile_cons_of_neg (fun a => !(a == ')')) ')' [] (by simp), List.append_nil]
  have ht0 : ¬(t.length = 0) := fun h => ht (List.length_eq_zero.mp h)
  have hu0 : ¬(u.length = 0) := fun h => hu (List.length_eq_zero.mp h)
  simp only [matchLinkAt]
  rw [if_pos trivial, htw]
  rw [if_neg ht0]
  rw [List.drop_left]
  rw [if_pos (show List.take 2 (']' :: '(' :: (u ++ [')'])) = [']', '('] from rfl)]
  rw [show List.drop 2 (']' :: '(' :: (u ++ [')'])) = u ++ [')'] from rfl]
  rw [huw]
  rw [if_neg hu0]
  rw [List.drop_left]
  rw [if_pos (show List.take 1 ([')'] : List Char) = [')'] from rfl)]
  rw [show List.drop 1 ([')'] : List Char) = [] from rfl]

/-- The scan `subLinks` rewrites a full link to its text. -/
theorem subLinks_link (t u : List Char) (ht : t ≠ []) (hu : u ≠ [])
    (htb : ']' ∉ t) (hub : ')' ∉ u) :
    subLinks ('[' :: (t ++ (']' :: '(' :: (u ++ [')'])))) = t := by
  unfold subLinks
  simp only [subLinksAux, matchLinkAt_link t u ht hu htb hub]
  simp [matchLinkAt, subLinksAux_nil]

/-- The code-span matcher on a full span. -/
theorem matchCodeAt_span (c : List Char) (hc : c ≠ []) (hb : '`' ∉ c) :
    matchCodeAt ('`' :: (c ++ ['`'])) = some (c, []) := by
  have hcw : (c ++ ['`']).takeWhile (fun a => !(a == '`')) = c := by
    rw [takeWhile_append_of_all (fun a ha => by
      have hne : a ≠ '`' := fun hh => hb (hh ▸ ha)
      simp [hne])]
    rw [takeWhile_cons_of_neg (fun a => !(a == '`')) '`' [] (by simp), List.append_nil]
  have hc0 : ¬(c.length = 0) := fun h => hc (List.length_eq_zero.mp h)
  simp only [matchCodeAt]
  rw [if_pos trivial, hcw]
  rw [if_neg hc0]
  rw [List.drop_left]
  rw [if_pos (show List.take 1 (['`'] : List Char) = ['`'] from rfl)]
  rw [show List.drop 1 (['`'] : List Char) = [] from rfl]

/-- The scan `subCode` removes the backticks of a full code span. -/
theorem subCode_span (c : List Char) (hc : c ≠ []) (hb : '`' ∉ c) :
    subCode ('`' :: (c ++ ['`'])) = c := by
  unfold subCode
  simp only [subCodeAux, matchCodeAt_span c hc hb]
  simp [matchCodeAt, subCodeAux_nil]

/-- Claim C8, counterexample: the input `[a](b*c)` contains a `*`, but the
whole link match — URL included — is replaced by the link text `a`, so
the `*` does not remain in the returned string. -/
theorem star_inside_removed_url_is_removed :
    '*' ∈ "[a](b*c)".toList ∧
    parse_inline_markdown "[a](b*c)".toList = "a".toList ∧
    '*' ∉ parse_inline_markdown "[a](b*c)".toList := by
  decide

/-- Claim C8, amended: `_parse_inline_markdown` replaces each markdown
link `[text](url)` by `text` and removes the backticks around code
spans, and it leaves any text containing neither `[` nor a backtick
unchanged apart from outer-whitespace stripping — in particular `**` and
`*` emphasis sequences outside links and code spans remain verbatim;
however, a `*` inside a removed link URL is removed together with the
URL. -/
theorem parse_inline_markdown_behavior :
    (∀ t u : List Char, t ≠ [] → u ≠ [] → ']' ∉ t → '[' ∉ t → '`' ∉ t → ')' ∉ u →
      parse_inline_markdown ('[' :: (t ++ (']' :: '(' :: (u ++ [')'])))) = pystrip t) ∧
    (∀ c : List Char, c ≠ [] → '`' ∉ c → '[' ∉ c →
      parse_inline_markdown ('`' :: (c ++ ['`'])) = pystrip c) ∧
    (∀ s : List Char, '[' ∉ s → '`' ∉ s → parse_inline_markdown s = pystrip s) := by
  refine ⟨?_, ?_, ?_⟩
  · intro t u ht hu htb htl htbt hub
    unfold parse_inline_markdown
    rw [subLinks_link t u ht hu htb hub]
    rw [subRefs_id_of_no_bracket t htl]
    rw [subCode_id_of_no_backtick t htbt]
  · intro c hc hcb hcl
    have hno : '[' ∉ '`' :: (c ++ ['`']) := by
      intro h
      rcases List.mem_cons.mp h with h | h
      · exact absurd h.symm (by decide)
      · rcases List.mem_append.mp h with h | h
        · exact hcl h
        · rcases List.mem_cons.mp h with h | h
          · exact absurd h.symm (by decide)
          · cases h
    unfold parse_inline_markdown
    rw [subLinks_id_of_no_bracket _ hno]
    rw [subRefs_id_of_no_bracket _ hno]
    rw [subCode_span c hc hcb]
  · intro s hsl hsb
    unfold parse_inline_markdown
    rw [subLinks_id_of_no_bracket _ hsl]
    rw [subRefs_id_of_no_bracket _ hsl]
    rw [subCode_id_of_no_backtick _ hsb]

/-- Witness for the C8 amended theorem: emphasis markers outside links
and code spans survive untouched. -/
theorem parse_inline_markdown_behavior_witness :
    parse_inline_markdown "a **b** c".toList = pystrip "a **b** c".toList :=
  parse_inline_markdown_behavior.2.2 "a **b** c".toList (by decide) (by decide)

/-! ## Claim C9 -/

/-- Claim C9: the golden test asserts only when the golden file exists and
`UPDATE_GOLDEN` is not `'1'`; in every other case it writes the freshly
normalized XML as the new golden file and asserts nothing, so a first
run with no golden file always passes. -/
theorem golden_test_asserts_only_with_existing_golden
    (envUpdateGolden : Option (List Char)) (goldenText : Option (List Char))
    (mainDocumentXml : List Char) :
    (goldenText = none →
      test_case_golden envUpdateGolden goldenText mainDocumentXml
        = GoldenOutcome.wroteGolden (normalize_xml mainDocumentXml)) ∧
    (updateGoldenFlag envUpdateGolden = true →
      test_case_golden envUpdateGolden goldenText mainDocumentXml
        = GoldenOutcome.wroteGolden (normalize_xml mainDocumentXml)) ∧
    (∀ b, test_case_golden envUpdateGolden goldenText mainDocumentXml
        = GoldenOutcome.asserted b →
      updateGoldenFlag envUpdateGolden = false ∧ goldenText ≠ none) := by
  refine ⟨?_, ?_, ?_⟩
  · intro h
    unfold test_case_golden
    rw [if_pos (Or.inr h)]
  · intro h
    unfold test_case_golden
    rw [if_pos (Or.inl h)]
  · intro b
    unfold test_case_golden
    by_cases h1 : updateGoldenFlag envUpdateGolden = true ∨ goldenText = none
    · rw [if_pos h1]
      intro hcontr
      cases hcontr
    · rw [if_neg h1]
      intro _
      push_neg at h1
      exact ⟨Bool.not_eq_true _ ▸ h1.1, h1.2⟩

/-- Witness for C9: a first run with no golden file writes the
normalized XML and asserts nothing. -/
theorem golden_test_asserts_only_with_existing_golden_witness :
    test_case_golden none none ['x'] = GoldenOutcome.wroteGolden (normalize_xml ['x']) :=
  (golden_test_asserts_only_with_existing_golden none none ['x']).1 rfl

/-! ## Claim C10 -/

/-- Claim C10, counterexample: the stem `x_to` does not contain `_to_`, yet
the output name is `x_to_to_pdf.pdf`, whose first occurrence of `_to_`
starts inside the stem, so the report's recovery yields `x.md` instead
of `x_to.md`. -/
theorem stem_ending_in_to_breaks_recovery :
    firstOccurIdx "_to_".toList "x_to".toList = none ∧
    outputFileName "x_to".toList "pdf".toList = "x_to_to_pdf.pdf".toList ∧
    recoverInputName (outputFileName "x_to".toList "pdf".toList) = "x.md".toList ∧
    recoverInputName (outputFileName "x_to".toList "pdf".toList)
      ≠ "x_to".toList ++ ".md".toList := by
  decide

/-- Helper for C10: the first occurrence of `_to_` in
`stem ++ "_to_" ++ rest` is at the boundary when the stem neither
contains `_to_` nor ends with `_to`. -/
theorem firstOccurIdx_boundary (rest : List Char) :
    ∀ stem : List Char, firstOccurIdx "_to_".toList stem = none →
      ("_to".toList).isSuffixOf stem = false →
      firstOccurIdx "_to_".toList (stem ++ ("_to_".toList ++ rest)) = some stem.length := by
  intro stem
  induction stem with
  | nil =>
    intro _ _
    simp [firstOccurIdx, List.isPrefixOf]
  | cons c st' ih =>
    intro hno hend
    have hnp : ("_to_".toList).isPrefixOf (c :: st') = false := by
      cases hp : ("_to_".toList).isPrefixOf (c :: st')
      · rfl
      · rw [firstOccurIdx, if_pos hp] at hno
        cases hno
    have hno' : firstOccurIdx "_to_".toList st' = none := by
      rw [firstOccurIdx, if_neg (by rw [hnp]; simp)] at hno
      exact Option.map_eq_none.mp hno
    have hend' : ("_to".toList).isSuffixOf st' = false := by
      cases hsfx : ("_to".toList).isSuffixOf st'
      · rfl
      · have h1 : "_to".toList <:+ st' := List.isSuffixOf_iff_suffix.mp hsfx
        have h2 : "_to".toList <:+ c :: st' := h1.trans (List.suffix_cons c st')
        rw [← List.isSuffixOf_iff_suffix] at h2
        rw [h2] at hend
        cases hend
    have hmain : ("_to_".toList).isPrefixOf (c :: (st' ++ ("_to_".toList ++ rest))) = false := by
      match st' with
      | [] =>
        simp [List.isPrefixOf]
      | [a] =>
        simp [List.isPrefixOf]
      | [a, b] =>
        simp only [List.isSuffixOf, List.isPrefixOf, List.reverse_cons, List.reverse_nil,
          List.nil_append, List.cons_append, List.append_nil, Bool.and_eq_false_eq_eq_false_or_eq_false,
          beq_eq_false_iff_ne, ne_eq] at hend
        simp only [List.cons_append, List.nil_append, List.isPrefixOf, Bool.and_eq_true,
          beq_iff_eq, List.isPrefixOf]
        simp only [Bool.and_eq_false_eq_eq_false_or_eq_false, beq_eq_false_iff_ne, ne_eq]
        tauto
      | a :: b :: d :: st'' =>
        simp only [List.isPrefixOf, Bool.and_eq_false_eq_eq_false_or_eq_false,
          beq_eq_false_iff_ne, ne_eq] at hnp
        simp only [List.cons_append, List.isPrefixOf, Bool.and_eq_true, beq_iff_eq]
        simp only [Bool.and_eq_false_eq_eq_false_or_eq_false, beq_eq_false_iff_ne, ne_eq]
        tauto
    rw [List.cons_append, firstOccurIdx, if_neg (by rw [hmain]; simp)]
    rw [ih hno' hend']
    rfl

/-- Claim C10, amended: for every batch-conversion input `stem.md` whose
stem neither contains the substring `_to_` nor ends with `_to`, the
grouping step recovers the input name: splitting the output name
`stem_to_format.format` on the first `_to_` and appending `.md` yields
exactly `stem.md`. -/
theorem recover_input_name_roundtrip (stem fmt : List Char)
    (hno : firstOccurIdx "_to_".toList stem = none)
    (hend : ("_to".toList).isSuffixOf stem = false) :
    recoverInputName (outputFileName stem fmt) = stem ++ ".md".toList := by
  unfold recoverInputName outputFileName splitHeadOn
  have hassoc : stem ++ "_to_".toList ++ fmt ++ '.' :: fmt
      = stem ++ ("_to_".toList ++ (fmt ++ '.' :: fmt)) := by
    simp [List.append_assoc]
  rw [hassoc, firstOccurIdx_boundary (fmt ++ '.' :: fmt) stem hno hend]
  show List.take stem.length (stem ++ ("_to_".toList ++ (fmt ++ '.' :: fmt))) ++ ".md".toList
      = stem ++ ".md".toList
  rw [List.take_left]

/-- Witness for the C10 amended theorem at a stem from the script's own
configuration. -/
theorem recover_input_name_roundtrip_witness :
    recoverInputName (outputFileName "sample_report".toList "docx".toList)
      = "sample_report".toList ++ ".md".toList :=
  recover_input_name_roundtrip "sample_report".toList "docx".toList (by decide) (by decide)

end DocGen
